import Mathlib

/-!
# Order placement and pricing (main.go)

A shallow embedding of the order service of `main.go`.

Modelling decisions, all visible in the definitions below:

* `float64` prices and order values are exact rationals (`ℚ`); the discount
  factor `0.9` is `9/10`.
* Go `int` quantities are `Int`; `len(orderProducts)` is a `Nat`.
* `ProductCategory` and `OrderStatus` are Go string types, so they are `String`
  here, with the source's constants.
* The relational store is three tables, each a list of rows.  An SQL `UPDATE ...
  WHERE id = ?` rewrites every row whose id matches, an `INSERT` appends a row.
* A transaction works on a private copy of the store: `Commit` makes the copy
  the store, `Rollback` (and a failed `Begin` or `Commit`) leaves the store as it
  was.
* Store calls can fail.  `Faults` tells, for the k-th store call a handler
  makes, whether it fails and with which error text.
* The clock is an input: `generateOrderID` receives the Unix seconds,
  `updateOrderStatus` receives the formatted calendar date.
* The decoded request is a `[]*Product`: an entry is `some product`, or `none`
  for a nil pointer (a JSON `null`).  Dereferencing `none` is a panic: the
  handler writes no response and reaches neither `Commit` nor `Rollback`, so
  the store is as it was.
-/

namespace Ecommerce

/-! ## Data model -/

/-- The Go type `OrderStatus` (a string type). -/
abbrev OrderStatus := String

def Placed : OrderStatus := "Placed"
def Dispatched : OrderStatus := "Dispatched"
def Completed : OrderStatus := "Completed"
def Canceled : OrderStatus := "Canceled"

/-- The Go type `ProductCategory` (a string type). -/
abbrev ProductCategory := String

def Premium : ProductCategory := "Premium"
def Regular : ProductCategory := "Regular"
def Budget : ProductCategory := "Budget"

/-- The Go struct `Product`: a catalog row, and also an order line of a request. -/
structure Product where
  ID : String
  Name : String
  Price : ℚ
  Category : ProductCategory
  Quantity : Int
  deriving DecidableEq

/-- A row of the table `orders(id, value, status, dispatchDate, prodQuantity)`.
`dispatchDate` is `none` while the column has never been written. -/
structure OrderRow where
  id : String
  value : ℚ
  status : OrderStatus
  dispatchDate : Option String
  prodQuantity : Nat
  deriving DecidableEq

/-- A row of the table `order_products(order_id, product_id)`. -/
structure OrderProductRow where
  order_id : String
  product_id : String
  deriving DecidableEq

/-- The relational store: the three tables. -/
structure Store where
  products : List Product
  orders : List OrderRow
  order_products : List OrderProductRow
  deriving DecidableEq

/-- What a handler writes to the `http.ResponseWriter`. -/
inductive Response where
  /-- Status 200 with the JSON body `{message, orderID}`. -/
  | placed (message : String) (orderID : String)
  /-- The call `w.WriteHeader(code)` with an empty body. -/
  | header (code : Nat)
  /-- The call `http.Error(w, msg, code)`. -/
  | error (code : Nat) (msg : String)
  /-- The handler panics (nil pointer dereference): it writes no response. -/
  | panic
  deriving DecidableEq

/-- Failure injection: `fail k = some e` when the k-th store call of the request
(counted from 0) returns the error `e`, `none` when it succeeds. -/
abbrev Faults := Nat → Option String

/-- No store call fails. -/
def noFaults : Faults := fun _ => none

def StatusOK : Nat := 200
def StatusBadRequest : Nat := 400
def StatusNotFound : Nat := 404
def StatusInternalServerError : Nat := 500

/-! ## Pricing -/

/-- The loop body of `calculateOrderValue`: the state is
`(premiumProductCount, totalOrderValue)`. -/
def calculateOrderValueStep (st : Nat × ℚ) (product : Product) : Nat × ℚ :=
  (if product.Category = Premium then st.1 + 1 else st.1,
   st.2 + product.Price * (product.Quantity : ℚ))

/-- The function `calculateOrderValue` of main.go. -/
def calculateOrderValue (products : List Product) : ℚ :=
  let st := products.foldl calculateOrderValueStep (0, 0)
  if st.1 ≥ 3 then st.2 * (9 / 10) else st.2

/-- The undiscounted total of the spec: the sum over the lines of price × quantity. -/
def rawTotal (products : List Product) : ℚ :=
  (products.map fun p => p.Price * (p.Quantity : ℚ)).sum

/-- The number of lines whose category is Premium. -/
def premiumLines (products : List Product) : Nat :=
  (products.filter fun p => p.Category = Premium).length

/-! ## Order identifiers -/

/-- The verb `%d` of `fmt.Sprintf` on an integer: the decimal digits, with a
leading minus sign for a negative number. -/
def formatDecimal (t : Int) : String :=
  if t < 0 then "-" ++ Nat.repr t.natAbs else Nat.repr t.natAbs

/-- The function `generateOrderID` of main.go; `now` is `time.Now().Unix()`. -/
def generateOrderID (now : Int) : String :=
  "ORD" ++ formatDecimal now

/-! ## Order placement -/

/-- The statement `UPDATE products SET quantity = quantity - ? WHERE id = ?`. -/
def execDecrement (products : List Product) (quantity : Int) (id : String) : List Product :=
  products.map fun row => if row.ID = id then { row with Quantity := row.Quantity - quantity } else row

/-- The first loop of `placeOrder` (lines 177-190), run inside the transaction
`tx`; `k` is the number of the next store call.  The result is the response of
an early return (or the panic at a nil entry), or the transaction after all
decrements. -/
def decrementLoop (fail : Faults) :
    Nat → Store → List (Option Product) → Except Response Store
  | _, tx, [] => .ok tx
  | _, _, none :: _ => .error .panic
  | k, tx, some product :: rest =>
    if product.Quantity < 1 ∨ product.Quantity > 10 then
      .error (.error StatusBadRequest ("invalid quantity for product: " ++ product.Name))
    else
      match fail k with
      | some e => .error (.error StatusInternalServerError e)
      | none =>
        decrementLoop fail (k + 1)
          { tx with products := execDecrement tx.products product.Quantity product.ID } rest

/-- The second loop of `placeOrder` (lines 202-209): one
`INSERT INTO order_products (order_id, product_id)` per line. -/
def linkLoop (fail : Faults) (orderID : String) :
    Nat → Store → List (Option Product) → Except Response Store
  | _, tx, [] => .ok tx
  | _, _, none :: _ => .error .panic
  | k, tx, some product :: rest =>
    match fail k with
    | some e => .error (.error StatusInternalServerError e)
    | none =>
      linkLoop fail orderID (k + 1)
        { tx with order_products := tx.order_products ++ [⟨orderID, product.ID⟩] } rest

/-- The handler `placeOrder` of main.go.  `body` is the result of decoding the
request body, `now` the Unix seconds read by `generateOrderID`, `db` the store
before the call; the result is the store after the call and the response.
When the first loop has returned normally it has dereferenced every entry, so
none is nil, and `calculateOrderValue` reads the products pointed to.

Store calls are numbered: 0 is `Begin`, 1..n the decrements, n+1 the insert into
`orders`, n+2..2n+1 the inserts into `order_products`, 2n+2 is `Commit`
(n the number of lines). -/
def placeOrder (fail : Faults) (now : Int) (db : Store)
    (body : Except String (List (Option Product))) : Store × Response :=
  match body with
  | .error e => (db, .error StatusBadRequest e)
  | .ok orderProducts =>
    match fail 0 with
    | some e => (db, .error StatusInternalServerError e)
    | none =>
      match decrementLoop fail 1 db orderProducts with
      | .error r => (db, r)
      | .ok tx1 =>
        let orderID := generateOrderID now
        let orderValue := calculateOrderValue orderProducts.reduceOption
        let n := orderProducts.length
        match fail (n + 1) with
        | some e => (db, .error StatusInternalServerError e)
        | none =>
          let tx2 : Store :=
            { tx1 with orders := tx1.orders ++ [⟨orderID, orderValue, Placed, none, n⟩] }
          match linkLoop fail orderID (n + 2) tx2 orderProducts with
          | .error r => (db, r)
          | .ok tx3 =>
            match fail (2 * n + 2) with
            | some e => (db, .error StatusInternalServerError e)
            | none => (tx3, .placed "Order placed successfully" orderID)

/-! ## Order status -/

/-- The statement `UPDATE orders SET status = ?, dispatchDate = ? WHERE id = ?`. -/
def execSetStatus (orders : List OrderRow) (status : OrderStatus) (dispatchDate : String)
    (id : String) : List OrderRow :=
  orders.map fun row =>
    if row.id = id then { row with status := status, dispatchDate := some dispatchDate } else row

/-- The value of `RowsAffected` for that statement: MySQL, with the connection
string of `main`, counts the rows the statement changed. -/
def rowsAffectedSetStatus (orders : List OrderRow) (status : OrderStatus) (dispatchDate : String)
    (id : String) : Nat :=
  (orders.filter fun row =>
    row.id = id ∧ ¬ (row.status = status ∧ row.dispatchDate = some dispatchDate)).length

/-- The handler `updateOrderStatus` of main.go.  `body` is the decoded status,
`today` is `time.Now().Format("2006-01-02")`.  Store call 0 is `Exec`, call 1 is
`RowsAffected`. -/
def updateOrderStatus (fail : Faults) (today : String) (db : Store) (orderID : String)
    (body : Except String OrderStatus) : Store × Response :=
  match body with
  | .error e => (db, .error StatusBadRequest e)
  | .ok status =>
    let dispatchDate : String := if status = Dispatched then today else ""
    match fail 0 with
    | some e => (db, .error StatusInternalServerError e)
    | none =>
      let db1 : Store := { db with orders := execSetStatus db.orders status dispatchDate orderID }
      match fail 1 with
      | some e => (db1, .error StatusInternalServerError e)
      | none =>
        if rowsAffectedSetStatus db.orders status dispatchDate orderID > 0 then
          (db1, .header StatusOK)
        else
          (db1, .error StatusNotFound "404 page not found")

/-! ## Specification-side notions -/

/-- A line passes the quantity check of `placeOrder`. -/
def validLine (p : Product) : Prop := 1 ≤ p.Quantity ∧ p.Quantity ≤ 10

instance (p : Product) : Decidable (validLine p) := by
  unfold validLine; infer_instance

/-- The decoded body of a request whose entries are the given lines, none of
them nil. -/
def requestOf (lines : List Product) : Except String (List (Option Product)) :=
  .ok (lines.map some)

/-- The total quantity the lines request of the product `id`. -/
def requested (lines : List Product) (id : String) : Int :=
  ((lines.filter fun l => l.ID = id).map fun l => l.Quantity).sum

/-- The concrete scenario of the spec: the four catalog rows, stock 5 each. -/
def scenarioCatalog : List Product :=
  [⟨"P1", "P1", 10, Regular, 5⟩, ⟨"P2", "P2", 20, Premium, 5⟩,
   ⟨"P3", "P3", 5, Premium, 5⟩, ⟨"P4", "P4", 8, Premium, 5⟩]

/-- The concrete scenario of the spec: the lines P1×2, P2×1, P3×1, P4×1. -/
def scenarioLines : List Product :=
  [⟨"P1", "P1", 10, Regular, 2⟩, ⟨"P2", "P2", 20, Premium, 1⟩,
   ⟨"P3", "P3", 5, Premium, 1⟩, ⟨"P4", "P4", 8, Premium, 1⟩]

/-- The store of the concrete scenario: the catalog and no orders. -/
def scenarioStore : Store := ⟨scenarioCatalog, [], []⟩

/-- The products table after the decrements of all lines. -/
def decrementAll (products : List Product) (lines : List Product) : List Product :=
  products.map fun row => { row with Quantity := row.Quantity - requested lines row.ID }

/-- The lines in front of the first line that fails the quantity check. -/
def validPrefix (lines : List Product) : List Product :=
  lines.takeWhile fun l => decide (validLine l)

/-- The first line, in request order, that fails the quantity check. -/
def firstInvalid (lines : List Product) : Option Product :=
  lines.find? fun l => decide (¬ validLine l)

/-- The number of store calls `placeOrder` makes on these lines when none of
them fails: `Begin`, then the decrements up to the first invalid line, and when
all lines are valid also the inserts and `Commit`. -/
def storeCalls (lines : List Product) : Nat :=
  if ∀ l ∈ lines, validLine l then 2 * lines.length + 3 else (validPrefix lines).length + 1

/-- The order row a placement inserts. -/
def newOrderRow (now : Int) (lines : List Product) : OrderRow :=
  ⟨generateOrderID now, calculateOrderValue lines, Placed, none, lines.length⟩

/-- The link rows a placement inserts. -/
def newLinkRows (now : Int) (lines : List Product) : List OrderProductRow :=
  lines.map fun l => ⟨generateOrderID now, l.ID⟩

/-- The store a committed placement leaves. -/
def placedStore (now : Int) (db : Store) (lines : List Product) : Store :=
  ⟨decrementAll db.products lines, db.orders ++ [newOrderRow now lines],
    db.order_products ++ newLinkRows now lines⟩

/-- The response of a committed placement. -/
def placedResponse (now : Int) : Response :=
  .placed "Order placed successfully" (generateOrderID now)

/-- The number a list of decimal digit characters denotes, most significant digit
first. -/
def digitsValue (cs : List Char) : Nat := cs.foldl (fun acc c => 10 * acc + (c.toNat - 48)) 0

/-- A single store failure: call number `k` fails with the error `e`, every
other call succeeds. -/
def faultAt (k : Nat) (e : String) : Faults :=
  fun j => if j = k then some e else none

/-- A request whose second line has quantity 11, after a valid first line. -/
def invalidLines : List Product :=
  [⟨"P1", "P1", 10, Regular, 2⟩, ⟨"P2", "P2", 20, Premium, 11⟩]

/-- One Premium line of quantity 10. -/
def onePremiumLine : List Product :=
  [⟨"P2", "P2", 20, Premium, 10⟩]

/-- Three Premium lines of quantity 1. -/
def threePremiumLines : List Product :=
  [⟨"P2", "P2", 20, Premium, 1⟩, ⟨"P3", "P3", 5, Premium, 1⟩, ⟨"P4", "P4", 8, Premium, 1⟩]

/-- A store with one unit of P1 in stock. -/
def lowStockStore : Store := ⟨[⟨"P1", "P1", 10, Regular, 1⟩], [], []⟩

/-- A request for two units of P1. -/
def overdraftLines : List Product := [⟨"P1", "P1", 10, Regular, 2⟩]

/-- An orders table with two orders, both Placed. -/
def twoOrdersStore : Store :=
  ⟨[], [⟨"ORD1", 20, Placed, none, 1⟩, ⟨"ORD2", 30, Placed, none, 2⟩], []⟩

/-- A catalog unlike the spec's scenario: other prices, categories and stock,
and no rows for P3 and P4. -/
def otherCatalogStore : Store :=
  ⟨[⟨"P1", "P1", 99, Premium, 50⟩, ⟨"P2", "P2", 1, Budget, 7⟩], [], []⟩

/-- The store after one placement of the spec's scenario at second 5. -/
def placedOnceStore : Store :=
  (placeOrder noFaults 5 scenarioStore (requestOf scenarioLines)).1

/-! ## Pricing lemmas -/

theorem foldl_calculateOrderValueStep (products : List Product) (st : Nat × ℚ) :
    products.foldl calculateOrderValueStep st
      = (st.1 + premiumLines products, st.2 + rawTotal products) := by
  induction products generalizing st with
  | nil => simp [premiumLines, rawTotal]
  | cons p ps ih =>
    rw [List.foldl_cons, ih]
    by_cases h : p.Category = Premium
    · simp [calculateOrderValueStep, premiumLines, rawTotal, h, List.filter_cons]
      constructor <;> ring
    · simp [calculateOrderValueStep, premiumLines, rawTotal, h, List.filter_cons]
      ring

theorem calculateOrderValue_eq (products : List Product) :
    calculateOrderValue products
      = if premiumLines products < 3 then rawTotal products
        else (9 / 10) * rawTotal products := by
  unfold calculateOrderValue
  simp only [foldl_calculateOrderValueStep, zero_add]
  by_cases h : premiumLines products < 3
  · simp [h, not_le.mpr h]
  · simp [h, not_lt.mp h, mul_comm]

/-! ## The decrement loop -/

theorem validLine_iff (p : Product) :
    validLine p ↔ ¬ (p.Quantity < 1 ∨ p.Quantity > 10) := by
  unfold validLine; omega

theorem reduceOption_map_some (lines : List Product) :
    (lines.map some).reduceOption = lines := by
  induction lines with
  | nil => rfl
  | cons l ls ih => rw [List.map_cons, List.reduceOption_cons_of_some, ih]

theorem eq_map_some_of_no_nil (entries : List (Option Product))
    (h : ∀ e ∈ entries, e ≠ none) : ∃ lines : List Product, entries = lines.map some := by
  induction entries with
  | nil => exact ⟨[], rfl⟩
  | cons e es ih =>
    obtain ⟨ls, hls⟩ := ih (fun x hx => h x (List.mem_cons_of_mem _ hx))
    cases e with
    | none => exact absurd rfl (h none (List.mem_cons_self _ _))
    | some l => exact ⟨l :: ls, by rw [hls, List.map_cons]⟩

theorem requested_cons (l : Product) (ls : List Product) (id : String) :
    requested (l :: ls) id = (if l.ID = id then l.Quantity else 0) + requested ls id := by
  unfold requested
  by_cases h : l.ID = id <;> simp [List.filter_cons, h]

theorem decrementAll_nil (products : List Product) : decrementAll products [] = products := by
  simp [decrementAll, requested]

theorem decrementAll_cons (products : List Product) (l : Product) (ls : List Product) :
    decrementAll (execDecrement products l.Quantity l.ID) ls = decrementAll products (l :: ls) := by
  simp only [decrementAll, execDecrement, List.map_map]
  apply List.map_congr_left
  intro row _
  simp only [Function.comp, requested_cons]
  by_cases h : row.ID = l.ID
  · simp [h, sub_sub]
  · have h2 : ¬ l.ID = row.ID := fun e => h e.symm
    simp [h, h2]

theorem decrementLoop_ok (fail : Faults) (lines : List Product) :
    ∀ (k : Nat) (tx : Store), (∀ l ∈ lines, validLine l) →
      (∀ i, i < lines.length → fail (k + i) = none) →
      decrementLoop fail k tx (lines.map some)
        = .ok { tx with products := decrementAll tx.products lines } := by
  induction lines with
  | nil => intro k tx _ _; simp [decrementLoop, decrementAll_nil]
  | cons l ls ih =>
    intro k tx hv hf
    have hl : ¬ (l.Quantity < 1 ∨ l.Quantity > 10) :=
      (validLine_iff l).mp (hv l (List.mem_cons_self _ _))
    have h0 : fail k = none := by simpa using hf 0 (by simp)
    rw [List.map_cons, decrementLoop, if_neg hl, h0]
    simp only
    rw [ih (k + 1) _ (fun x hx => hv x (List.mem_cons_of_mem _ hx))
      (fun i hi => by
        have := hf (i + 1) (by simpa using hi)
        rwa [show k + 1 + i = k + (i + 1) by omega])]
    simp [decrementAll_cons]

theorem decrementLoop_ok_inv (fail : Faults) (entries : List (Option Product)) :
    ∀ (k : Nat) (tx tx1 : Store), decrementLoop fail k tx entries = .ok tx1 →
      ∃ lines : List Product, entries = lines.map some ∧ (∀ l ∈ lines, validLine l) ∧
        (∀ i, i < lines.length → fail (k + i) = none) := by
  induction entries with
  | nil => intro k tx tx1 _; exact ⟨[], rfl, by simp, by simp⟩
  | cons en es ih =>
    intro k tx tx1 h
    cases en with
    | none => rw [decrementLoop] at h; cases h
    | some l =>
      rw [decrementLoop] at h
      by_cases hl : l.Quantity < 1 ∨ l.Quantity > 10
      · rw [if_pos hl] at h; cases h
      · rw [if_neg hl] at h
        cases h0 : fail k with
        | some e => rw [h0] at h; cases h
        | none =>
          rw [h0] at h
          obtain ⟨ls, hls, hv, hf⟩ := ih _ _ _ h
          refine ⟨l :: ls, by rw [hls, List.map_cons], ?_, ?_⟩
          · intro x hx
            rcases List.mem_cons.mp hx with rfl | hx
            · exact (validLine_iff _).mpr hl
            · exact hv x hx
          · intro i hi
            cases i with
            | zero => simpa using h0
            | succ j =>
              have := hf j (by simpa using hi)
              rwa [show k + 1 + j = k + (j + 1) by omega] at this

theorem decrementLoop_error_inv (fail : Faults) (entries : List (Option Product)) :
    ∀ (k : Nat) (tx : Store) (r : Response), decrementLoop fail k tx entries = .error r →
      r = .panic ∨ ∃ code msg, r = .error code msg := by
  induction entries with
  | nil => intro k tx r h; simp [decrementLoop] at h
  | cons en es ih =>
    intro k tx r h
    cases en with
    | none => rw [decrementLoop] at h; cases h; exact Or.inl rfl
    | some l =>
      rw [decrementLoop] at h
      by_cases hl : l.Quantity < 1 ∨ l.Quantity > 10
      · rw [if_pos hl] at h; cases h; exact Or.inr ⟨_, _, rfl⟩
      · rw [if_neg hl] at h
        cases h0 : fail k with
        | some e => rw [h0] at h; cases h; exact Or.inr ⟨_, _, rfl⟩
        | none => rw [h0] at h; exact ih _ _ _ h

theorem decrementLoop_error_inv_some (fail : Faults) (lines : List Product) :
    ∀ (k : Nat) (tx : Store) (r : Response),
      decrementLoop fail k tx (lines.map some) = .error r → ∃ code msg, r = .error code msg := by
  induction lines with
  | nil => intro k tx r h; simp [decrementLoop] at h
  | cons l ls ih =>
    intro k tx r h
    rw [List.map_cons, decrementLoop] at h
    by_cases hl : l.Quantity < 1 ∨ l.Quantity > 10
    · rw [if_pos hl] at h; cases h; exact ⟨_, _, rfl⟩
    · rw [if_neg hl] at h
      cases h0 : fail k with
      | some e => rw [h0] at h; cases h; exact ⟨_, _, rfl⟩
      | none => rw [h0] at h; exact ih _ _ _ h

theorem decrementLoop_fault (fail : Faults) (lines : List Product) :
    ∀ (k : Nat) (tx : Store) (j : Nat) (e : String), j < (validPrefix lines).length →
      (∀ i, i < j → fail (k + i) = none) → fail (k + j) = some e →
      decrementLoop fail k tx (lines.map some)
        = .error (.error StatusInternalServerError e) := by
  induction lines with
  | nil => intro k tx j e hj; simp [validPrefix] at hj
  | cons l ls ih =>
    intro k tx j e hj hnone hsome
    by_cases hl : validLine l
    · have hq : ¬ (l.Quantity < 1 ∨ l.Quantity > 10) := (validLine_iff l).mp hl
      rw [List.map_cons, decrementLoop, if_neg hq]
      cases j with
      | zero =>
        have h0 : fail k = some e := by simpa using hsome
        rw [h0]
      | succ j =>
        have h0 : fail k = none := by simpa using hnone 0 (by omega)
        rw [h0]
        simp only
        apply ih (k + 1) _ j e
        · simpa [validPrefix, List.takeWhile_cons, hl] using hj
        · intro i hi
          have := hnone (i + 1) (by omega)
          rwa [show k + 1 + i = k + (i + 1) by omega]
        · rwa [show k + 1 + j = k + (j + 1) by omega]
    · simp [validPrefix, List.takeWhile_cons, hl] at hj

theorem decrementLoop_invalid (fail : Faults) (lines : List Product) :
    ∀ (k : Nat) (tx : Store) (bad : Product), firstInvalid lines = some bad →
      (∀ i, i < (validPrefix lines).length → fail (k + i) = none) →
      decrementLoop fail k tx (lines.map some)
        = .error (.error StatusBadRequest ("invalid quantity for product: " ++ bad.Name)) := by
  induction lines with
  | nil => intro k tx bad h; simp [firstInvalid] at h
  | cons l ls ih =>
    intro k tx bad hbad hnone
    by_cases hl : validLine l
    · have hq : ¬ (l.Quantity < 1 ∨ l.Quantity > 10) := (validLine_iff l).mp hl
      have hlen : (validPrefix (l :: ls)).length = (validPrefix ls).length + 1 := by
        simp [validPrefix, List.takeWhile_cons, hl]
      have h0 : fail k = none := by simpa using hnone 0 (by omega)
      rw [List.map_cons, decrementLoop, if_neg hq, h0]
      simp only
      apply ih (k + 1) _ bad
      · simpa [firstInvalid, List.find?_cons, hl] using hbad
      · intro i hi
        have := hnone (i + 1) (by omega)
        rwa [show k + 1 + i = k + (i + 1) by omega]
    · have hq : l.Quantity < 1 ∨ l.Quantity > 10 := by
        by_contra hc; exact hl ((validLine_iff l).mpr hc)
      have : bad = l := by
        simp [firstInvalid, List.find?_cons, hl] at hbad; exact hbad.symm
      rw [List.map_cons, decrementLoop, if_pos hq, this]

/-! ## The link loop -/

theorem linkLoop_ok (fail : Faults) (orderID : String) (lines : List Product) :
    ∀ (k : Nat) (tx : Store), (∀ i, i < lines.length → fail (k + i) = none) →
      linkLoop fail orderID k tx (lines.map some)
        = .ok { tx with order_products :=
                  tx.order_products ++ lines.map fun l => ⟨orderID, l.ID⟩ } := by
  induction lines with
  | nil => intro k tx _; simp [linkLoop]
  | cons l ls ih =>
    intro k tx hf
    have h0 : fail k = none := by simpa using hf 0 (by simp)
    rw [List.map_cons, linkLoop, h0]
    simp only
    rw [ih (k + 1) _ (fun i hi => by
        have := hf (i + 1) (by simpa using hi)
        rwa [show k + 1 + i = k + (i + 1) by omega])]
    simp

theorem linkLoop_ok_inv (fail : Faults) (orderID : String) (lines : List Product) :
    ∀ (k : Nat) (tx tx1 : Store), linkLoop fail orderID k tx (lines.map some) = .ok tx1 →
      ∀ i, i < lines.length → fail (k + i) = none := by
  induction lines with
  | nil => intro k tx tx1 _ i hi; simp at hi
  | cons l ls ih =>
    intro k tx tx1 h i hi
    rw [List.map_cons, linkLoop] at h
    cases h0 : fail k with
    | some e => rw [h0] at h; cases h
    | none =>
      rw [h0] at h
      cases i with
      | zero => simpa using h0
      | succ j =>
        have := ih _ _ _ h j (by simpa using hi)
        rwa [show k + 1 + j = k + (j + 1) by omega] at this

theorem linkLoop_error_inv (fail : Faults) (orderID : String) (lines : List Product) :
    ∀ (k : Nat) (tx : Store) (r : Response),
      linkLoop fail orderID k tx (lines.map some) = .error r →
      ∃ code msg, r = .error code msg := by
  induction lines with
  | nil => intro k tx r h; simp [linkLoop] at h
  | cons l ls ih =>
    intro k tx r h
    rw [List.map_cons, linkLoop] at h
    cases h0 : fail k with
    | some e => rw [h0] at h; cases h; exact ⟨_, _, rfl⟩
    | none => rw [h0] at h; exact ih _ _ _ h

theorem linkLoop_fault (fail : Faults) (orderID : String) (lines : List Product) :
    ∀ (k : Nat) (tx : Store) (j : Nat) (e : String), j < lines.length →
      (∀ i, i < j → fail (k + i) = none) → fail (k + j) = some e →
      linkLoop fail orderID k tx (lines.map some)
        = .error (.error StatusInternalServerError e) := by
  induction lines with
  | nil => intro k tx j e hj; simp at hj
  | cons l ls ih =>
    intro k tx j e hj hnone hsome
    rw [List.map_cons, linkLoop]
    cases j with
    | zero =>
      have h0 : fail k = some e := by simpa using hsome
      rw [h0]
    | succ j =>
      have h0 : fail k = none := by simpa using hnone 0 (by omega)
      rw [h0]
      simp only
      apply ih (k + 1) _ j e
      · simpa using hj
      · intro i hi
        have := hnone (i + 1) (by omega)
        rwa [show k + 1 + i = k + (i + 1) by omega]
      · rwa [show k + 1 + j = k + (j + 1) by omega]

/-! ## The handler `placeOrder` -/

theorem placeOrder_success (fail : Faults) (now : Int) (db : Store) (lines : List Product)
    (hv : ∀ l ∈ lines, validLine l) (hf : ∀ k, k ≤ 2 * lines.length + 2 → fail k = none) :
    placeOrder fail now db (requestOf lines) = (placedStore now db lines, placedResponse now) := by
  have h0 := hf 0 (by omega)
  have h1 := decrementLoop_ok fail lines 1 db hv (fun i hi => hf (1 + i) (by omega))
  have h2 := hf (lines.length + 1) (by omega)
  have h4 := hf (2 * lines.length + 2) (by omega)
  simp only [placeOrder, requestOf, h0, h1, h2, h4, List.length_map, reduceOption_map_some]
  rw [linkLoop_ok fail _ lines (lines.length + 2) _ (fun i hi => hf _ (by omega))]
  rfl

theorem placeOrder_cases_some (fail : Faults) (now : Int) (db : Store) (lines : List Product) :
    (∃ code msg, placeOrder fail now db (requestOf lines) = (db, .error code msg)) ∨
    ((∀ l ∈ lines, validLine l) ∧ (∀ k, k ≤ 2 * lines.length + 2 → fail k = none) ∧
      placeOrder fail now db (requestOf lines)
        = (placedStore now db lines, placedResponse now)) := by
  cases h0 : fail 0 with
  | some e => left; exact ⟨StatusInternalServerError, e, by simp [placeOrder, requestOf, h0]⟩
  | none =>
    cases h1 : decrementLoop fail 1 db (lines.map some) with
    | error r =>
      obtain ⟨c, m, rfl⟩ := decrementLoop_error_inv_some fail lines 1 db r h1
      left; exact ⟨c, m, by simp [placeOrder, requestOf, h0, h1]⟩
    | ok tx1 =>
      obtain ⟨ls, hls, hv, hd⟩ := decrementLoop_ok_inv fail _ 1 db tx1 h1
      have hls2 : lines = ls := by
        have := congrArg List.reduceOption hls
        rwa [reduceOption_map_some, reduceOption_map_some] at this
      subst hls2
      cases h2 : fail (lines.length + 1) with
      | some e =>
        left
        exact ⟨StatusInternalServerError, e, by simp [placeOrder, requestOf, h0, h1, h2]⟩
      | none =>
        cases h3 : linkLoop fail (generateOrderID now) (lines.length + 2)
            { tx1 with orders := tx1.orders ++
                [⟨generateOrderID now, calculateOrderValue lines, Placed, none, lines.length⟩] }
            (lines.map some) with
        | error r =>
          obtain ⟨c, m, rfl⟩ := linkLoop_error_inv fail _ lines _ _ r h3
          left
          exact ⟨c, m, by
            simp [placeOrder, requestOf, h0, h1, h2, h3, reduceOption_map_some]⟩
        | ok tx3 =>
          have hl := linkLoop_ok_inv fail _ lines _ _ tx3 h3
          cases h4 : fail (2 * lines.length + 2) with
          | some e =>
            left
            exact ⟨StatusInternalServerError, e, by
              simp [placeOrder, requestOf, h0, h1, h2, h3, h4, reduceOption_map_some]⟩
          | none =>
            right
            have hf : ∀ k, k ≤ 2 * lines.length + 2 → fail k = none := by
              intro k hk
              by_cases c0 : k = 0
              · rw [c0]; exact h0
              by_cases c1 : k ≤ lines.length
              · have := hd (k - 1) (by omega)
                rwa [show 1 + (k - 1) = k by omega] at this
              by_cases c2 : k = lines.length + 1
              · rw [c2]; exact h2
              by_cases c3 : k = 2 * lines.length + 2
              · rw [c3]; exact h4
              have := hl (k - (lines.length + 2)) (by omega)
              rwa [show lines.length + 2 + (k - (lines.length + 2)) = k by omega] at this
            exact ⟨hv, hf, placeOrder_success fail now db lines hv hf⟩

theorem placeOrder_cases (fail : Faults) (now : Int) (db : Store)
    (body : Except String (List (Option Product))) :
    (∃ r, placeOrder fail now db body = (db, r) ∧
      (r = .panic ∨ ∃ code msg, r = .error code msg)) ∨
    (∃ lines, body = requestOf lines ∧ (∀ l ∈ lines, validLine l) ∧
      (∀ k, k ≤ 2 * lines.length + 2 → fail k = none) ∧
      placeOrder fail now db body = (placedStore now db lines, placedResponse now)) := by
  cases body with
  | error e => left; exact ⟨_, rfl, Or.inr ⟨_, _, rfl⟩⟩
  | ok entries =>
    cases h0 : fail 0 with
    | some e =>
      left
      exact ⟨.error StatusInternalServerError e, by simp [placeOrder, h0], Or.inr ⟨_, _, rfl⟩⟩
    | none =>
      cases h1 : decrementLoop fail 1 db entries with
      | error r =>
        left
        exact ⟨r, by simp [placeOrder, h0, h1], decrementLoop_error_inv fail entries 1 db r h1⟩
      | ok tx1 =>
        obtain ⟨lines, rfl, _, _⟩ := decrementLoop_ok_inv fail entries 1 db tx1 h1
        rcases placeOrder_cases_some fail now db lines with ⟨c, m, hc⟩ | ⟨hv, hf, hp⟩
        · left; exact ⟨_, hc, Or.inr ⟨c, m, rfl⟩⟩
        · right; exact ⟨lines, rfl, hv, hf, hp⟩

theorem validPrefix_length_le (lines : List Product) :
    (validPrefix lines).length ≤ lines.length := by
  unfold validPrefix
  exact (List.takeWhile_sublist _).length_le

theorem firstInvalid_of_not_all (lines : List Product) (h : ¬ ∀ l ∈ lines, validLine l) :
    ∃ bad, firstInvalid lines = some bad ∧ bad ∈ lines ∧ ¬ validLine bad := by
  induction lines with
  | nil => simp at h
  | cons l ls ih =>
    by_cases hl : validLine l
    · have : ¬ ∀ x ∈ ls, validLine x := by
        intro hc; apply h; intro x hx
        rcases List.mem_cons.mp hx with rfl | hx
        · exact hl
        · exact hc x hx
      obtain ⟨bad, h1, h2, h3⟩ := ih this
      exact ⟨bad, by simpa [firstInvalid, List.find?_cons, hl] using h1,
        List.mem_cons_of_mem _ h2, h3⟩
    · exact ⟨l, by simp [firstInvalid, List.find?_cons, hl], List.mem_cons_self _ _, hl⟩

theorem placeOrder_invalid (fail : Faults) (now : Int) (db : Store) (lines : List Product)
    (bad : Product) (hbad : firstInvalid lines = some bad)
    (hf : ∀ k, k ≤ (validPrefix lines).length → fail k = none) :
    placeOrder fail now db (requestOf lines)
      = (db, .error StatusBadRequest ("invalid quantity for product: " ++ bad.Name)) := by
  have h0 := hf 0 (by omega)
  have h1 := decrementLoop_invalid fail lines 1 db bad hbad (fun i hi => hf (1 + i) (by omega))
  simp [placeOrder, requestOf, h0, h1]

theorem first_fault (fail : Faults) (k : Nat) (h : fail k ≠ none) :
    ∃ j, j ≤ k ∧ ∃ e, fail j = some e ∧ ∀ i, i < j → fail i = none := by
  induction k using Nat.strong_induction_on with
  | _ k ih =>
    by_cases hprev : ∀ i, i < k → fail i = none
    · cases hk : fail k with
      | none => exact absurd hk h
      | some e => exact ⟨k, le_refl k, e, hk, hprev⟩
    · push_neg at hprev
      obtain ⟨i, hi, hne⟩ := hprev
      obtain ⟨j, hj, rest⟩ := ih i hi hne
      exact ⟨j, by omega, rest⟩

theorem placeOrder_fault (fail : Faults) (now : Int) (db : Store) (lines : List Product)
    (k : Nat) (e : String) (hk : k < storeCalls lines) (hsome : fail k = some e)
    (hnone : ∀ j, j < k → fail j = none) :
    placeOrder fail now db (requestOf lines) = (db, .error StatusInternalServerError e) := by
  by_cases c0 : k = 0
  · subst c0; simp [placeOrder, requestOf, hsome]
  have h0 : fail 0 = none := hnone 0 (by omega)
  by_cases c1 : k ≤ (validPrefix lines).length
  · have h1 := decrementLoop_fault fail lines 1 db (k - 1) e (by omega)
      (fun i hi => hnone (1 + i) (by omega))
      (by rwa [show 1 + (k - 1) = k by omega])
    simp [placeOrder, requestOf, h0, h1]
  · have hv : ∀ l ∈ lines, validLine l := by
      by_contra hc
      simp only [storeCalls, if_neg hc] at hk
      omega
    simp only [storeCalls, if_pos hv] at hk
    have hle := validPrefix_length_le lines
    have hpre : (validPrefix lines).length = lines.length := by
      unfold validPrefix
      rw [List.takeWhile_eq_self_iff.mpr (fun x hx => by simpa using hv x hx)]
    have h1 := decrementLoop_ok fail lines 1 db hv (fun i hi => hnone (1 + i) (by omega))
    by_cases c2 : k = lines.length + 1
    · subst c2; simp [placeOrder, requestOf, h0, h1, hsome]
    have h2 : fail (lines.length + 1) = none := hnone _ (by omega)
    by_cases c3 : k = 2 * lines.length + 2
    · have h3 := linkLoop_ok fail (generateOrderID now) lines (lines.length + 2)
        { db with products := decrementAll db.products lines,
                  orders := db.orders ++
                    [⟨generateOrderID now, calculateOrderValue lines, Placed, none, lines.length⟩] }
        (fun i hi => hnone _ (by omega))
      rw [c3] at hsome
      simp [placeOrder, requestOf, h0, h1, h2, h3, hsome, reduceOption_map_some]
    · have h3 := linkLoop_fault fail (generateOrderID now) lines (lines.length + 2)
        { db with products := decrementAll db.products lines,
                  orders := db.orders ++
                    [⟨generateOrderID now, calculateOrderValue lines, Placed, none, lines.length⟩] }
        (k - (lines.length + 2)) e (by omega) (fun i hi => hnone _ (by omega))
        (by rwa [show lines.length + 2 + (k - (lines.length + 2)) = k by omega])
      simp [placeOrder, requestOf, h0, h1, h2, h3, reduceOption_map_some]

/-! ## Decimal rendering -/

theorem digitChar_toNat (d : Nat) (h : d < 10) : (Nat.digitChar d).toNat - 48 = d := by
  interval_cases d <;> rfl

theorem digitChar_ne_minus (d : Nat) (h : d < 10) : Nat.digitChar d ≠ '-' := by
  interval_cases d <;> decide

theorem toDigitsCore_append (fuel : Nat) : ∀ (n : Nat) (ds : List Char),
    Nat.toDigitsCore 10 fuel n ds = Nat.toDigitsCore 10 fuel n [] ++ ds := by
  induction fuel with
  | zero => intro n ds; simp [Nat.toDigitsCore]
  | succ f ih =>
    intro n ds
    simp only [Nat.toDigitsCore]
    by_cases h : n / 10 = 0
    · simp [h]
    · simp only [h, if_false]
      rw [ih (n / 10) (Nat.digitChar (n % 10) :: ds), ih (n / 10) [Nat.digitChar (n % 10)]]
      simp

theorem digitsValue_toDigitsCore (fuel : Nat) : ∀ n : Nat, n < fuel →
    digitsValue (Nat.toDigitsCore 10 fuel n []) = n := by
  induction fuel with
  | zero => intro n h; omega
  | succ f ih =>
    intro n hn
    simp only [Nat.toDigitsCore]
    by_cases h : n / 10 = 0
    · simp only [h, if_true]
      have hn10 : n < 10 := by omega
      have hmod : n % 10 = n := by omega
      rw [hmod]
      simp [digitsValue, digitChar_toNat n hn10]
    · simp only [h, if_false]
      rw [toDigitsCore_append]
      have hlt : n / 10 < f := by omega
      have := ih (n / 10) hlt
      unfold digitsValue at this ⊢
      rw [List.foldl_append, this]
      simp [digitChar_toNat (n % 10) (Nat.mod_lt _ (by norm_num))]
      omega

theorem toDigitsCore_no_minus (fuel : Nat) : ∀ (n : Nat) (ds : List Char),
    (∀ c ∈ ds, c ≠ '-') → ∀ c ∈ Nat.toDigitsCore 10 fuel n ds, c ≠ '-' := by
  induction fuel with
  | zero => intro n ds h; simpa [Nat.toDigitsCore] using h
  | succ f ih =>
    intro n ds hds
    have hd : ∀ c ∈ Nat.digitChar (n % 10) :: ds, c ≠ '-' := by
      intro c hc
      rcases List.mem_cons.mp hc with rfl | hc
      · exact digitChar_ne_minus _ (Nat.mod_lt _ (by norm_num))
      · exact hds c hc
    simp only [Nat.toDigitsCore]
    by_cases h : n / 10 = 0
    · simpa only [h, if_true] using hd
    · simp only [h, if_false]
      exact ih _ _ hd

theorem repr_injective (a b : Nat) (h : Nat.repr a = Nat.repr b) : a = b := by
  have h1 : Nat.toDigits 10 a = Nat.toDigits 10 b := by
    have := congrArg String.data h
    simpa [Nat.repr, List.asString] using this
  have ha := digitsValue_toDigitsCore (a + 1) a (by omega)
  have hb := digitsValue_toDigitsCore (b + 1) b (by omega)
  unfold Nat.toDigits at h1
  rw [h1] at ha
  omega

theorem repr_ne_minus (a : Nat) (s : String) : "-" ++ s ≠ Nat.repr a := by
  intro h
  have h1 := congrArg String.data h
  simp only [String.data_append, Nat.repr, List.asString] at h1
  have : '-' ∈ Nat.toDigits 10 a := by rw [← h1]; simp
  exact toDigitsCore_no_minus _ _ _ (by simp) _ this rfl

theorem append_left_cancel (p a b : String) (h : p ++ a = p ++ b) : a = b := by
  have h1 := congrArg String.data h
  simp only [String.data_append] at h1
  exact String.ext (List.append_cancel_left h1)

theorem formatDecimal_injective (a b : Int) (h : formatDecimal a = formatDecimal b) : a = b := by
  unfold formatDecimal at h
  by_cases ha : a < 0 <;> by_cases hb : b < 0
  · rw [if_pos ha, if_pos hb] at h
    have := repr_injective _ _ (append_left_cancel _ _ _ h)
    omega
  · rw [if_pos ha, if_neg hb] at h
    exact absurd h (repr_ne_minus _ _)
  · rw [if_neg ha, if_pos hb] at h
    exact absurd h.symm (repr_ne_minus _ _)
  · rw [if_neg ha, if_neg hb] at h
    have := repr_injective _ _ h
    omega

/-! ## The handler `updateOrderStatus` -/

theorem execSetStatus_absent (orders : List OrderRow) (status : OrderStatus)
    (dispatchDate id : String) (h : ∀ row ∈ orders, row.id ≠ id) :
    execSetStatus orders status dispatchDate id = orders := by
  unfold execSetStatus
  conv_rhs => rw [← List.map_id orders]
  apply List.map_congr_left
  intro row hrow
  simp [h row hrow]

theorem updateOrderStatus_store (fail : Faults) (today : String) (db : Store)
    (orderID : String) (status : OrderStatus) (h0 : fail 0 = none) :
    (updateOrderStatus fail today db orderID (.ok status)).1
      = ⟨db.products,
          execSetStatus db.orders status (if status = Dispatched then today else "") orderID,
          db.order_products⟩ := by
  simp only [updateOrderStatus, h0]
  cases fail 1 with
  | some e => rfl
  | none =>
    simp only
    by_cases hr : rowsAffectedSetStatus db.orders status
        (if status = Dispatched then today else "") orderID > 0
    · rw [if_pos hr]
    · rw [if_neg hr]

theorem rowsAffectedSetStatus_absent (orders : List OrderRow) (status : OrderStatus)
    (dispatchDate id : String) (h : ∀ row ∈ orders, row.id ≠ id) :
    rowsAffectedSetStatus orders status dispatchDate id = 0 := by
  unfold rowsAffectedSetStatus
  rw [List.length_eq_zero, List.filter_eq_nil_iff]
  intro row hrow
  simp [h row hrow]

/-! ## Pricing: the discount rule -/

/-- C1: for every list of order lines whose quantities all lie in [1,10],
`calculateOrderValue` returns the sum over the lines of price × quantity when
fewer than 3 lines have category Premium, and 9/10 of that sum when 3 or more
lines have category Premium.  The count is the number of Premium lines, whatever
their quantities. -/
theorem calculateOrderValue_discount_rule (lines : List Product)
    (_hq : ∀ l ∈ lines, 1 ≤ l.Quantity ∧ l.Quantity ≤ 10) :
    (premiumLines lines < 3 → calculateOrderValue lines = rawTotal lines) ∧
    (3 ≤ premiumLines lines → calculateOrderValue lines = (9 / 10) * rawTotal lines) := by
  rw [calculateOrderValue_eq]
  constructor
  · intro h; rw [if_pos h]
  · intro h; rw [if_neg (by omega)]

/-- C1 on the spec's scenario (raw total 53, result 47.7), on one Premium line of
quantity 10 (no discount) and on three Premium lines of quantity 1 (discount). -/
theorem calculateOrderValue_discount_rule_witness :
    ((∀ l ∈ scenarioLines, 1 ≤ l.Quantity ∧ l.Quantity ≤ 10) ∧
      rawTotal scenarioLines = 53 ∧ calculateOrderValue scenarioLines = 477 / 10) ∧
    (premiumLines onePremiumLine = 1 ∧
      calculateOrderValue onePremiumLine = 200 ∧ rawTotal onePremiumLine = 200) ∧
    (premiumLines threePremiumLines = 3 ∧
      calculateOrderValue threePremiumLines = 297 / 10 ∧ rawTotal threePremiumLines = 33) := by
  have r1 : rawTotal scenarioLines = 53 := by norm_num [rawTotal, scenarioLines]
  have r2 : rawTotal onePremiumLine = 200 := by norm_num [rawTotal, onePremiumLine]
  have r3 : rawTotal threePremiumLines = 33 := by norm_num [rawTotal, threePremiumLines]
  refine ⟨⟨by decide, r1, ?_⟩, ⟨by decide, ?_, r2⟩, ⟨by decide, ?_, r3⟩⟩
  · rw [(calculateOrderValue_discount_rule scenarioLines (by decide)).2 (by decide), r1]
    norm_num
  · rw [(calculateOrderValue_discount_rule onePremiumLine (by decide)).1 (by decide), r2]
  · rw [(calculateOrderValue_discount_rule threePremiumLines (by decide)).2 (by decide), r3]
    norm_num

/-! ## Placement: atomicity -/

theorem placeOrder_not_placed (fail : Faults) (now : Int) (db : Store)
    (entries : List (Option Product)) (lines : List Product)
    (hr : entries.reduceOption = lines)
    (hno : ¬ ((∀ l ∈ lines, validLine l) ∧ ∀ k, k ≤ 2 * lines.length + 2 → fail k = none)) :
    (placeOrder fail now db (.ok entries)).1 = db ∧
    ((placeOrder fail now db (.ok entries)).2 = .panic ∨
      ∃ code msg, (placeOrder fail now db (.ok entries)).2 = .error code msg) := by
  rcases placeOrder_cases fail now db (.ok entries) with ⟨r, hc, hr2⟩ | ⟨ls, hb, hv, hf, _⟩
  · rw [hc]; exact ⟨rfl, hr2⟩
  · have he : entries = ls.map some := by
      simpa [requestOf] using hb
    have : ls = lines := by rw [← hr, he, reduceOption_map_some]
    subst this
    exact absurd ⟨hv, hf⟩ hno

/-- C2: when some line of the request has a quantity below 1 or above 10,
wherever it stands in the list, `placeOrder` answers with an error and the store
after the call is the store before the call (products, orders and
order_products alike).  The same holds when the request also has nil entries
among these lines, except that the handler may then panic instead of answering. -/
theorem placeOrder_invalid_quantity_rolls_back (fail : Faults) (now : Int) (db : Store)
    (lines : List Product) (h : ∃ l ∈ lines, l.Quantity < 1 ∨ l.Quantity > 10) :
    (∃ code msg, (placeOrder fail now db (requestOf lines)).2 = .error code msg) ∧
    (placeOrder fail now db (requestOf lines)).1 = db ∧
    (placeOrder fail now db (requestOf lines)).1.products = db.products ∧
    (placeOrder fail now db (requestOf lines)).1.orders = db.orders ∧
    (placeOrder fail now db (requestOf lines)).1.order_products = db.order_products ∧
    (∀ entries : List (Option Product), entries.reduceOption = lines →
      (placeOrder fail now db (.ok entries)).1 = db ∧
      ((placeOrder fail now db (.ok entries)).2 = .panic ∨
        ∃ code msg, (placeOrder fail now db (.ok entries)).2 = .error code msg)) := by
  have hno : ¬ ((∀ l ∈ lines, validLine l) ∧
      ∀ k, k ≤ 2 * lines.length + 2 → fail k = none) := by
    rintro ⟨hv, _⟩
    obtain ⟨l, hl, hq⟩ := h
    exact (validLine_iff l).mp (hv l hl) hq
  refine ⟨?_, ?_, ?_, ?_, ?_, fun entries hr => placeOrder_not_placed fail now db entries lines hr hno⟩
  all_goals
    rcases placeOrder_cases_some fail now db lines with ⟨c, m, hc⟩ | ⟨hv, hf, _⟩
    · first
        | (rw [hc]; exact ⟨c, m, rfl⟩)
        | rw [hc]
    · exact absurd ⟨hv, hf⟩ hno

/-- C2 on a request whose invalid line follows a valid one, and on the same
request with a nil entry after the valid line. -/
theorem placeOrder_invalid_quantity_rolls_back_witness :
    (∃ l ∈ invalidLines, l.Quantity < 1 ∨ l.Quantity > 10) ∧
    ((∃ code msg, (placeOrder noFaults 5 scenarioStore (requestOf invalidLines)).2
        = .error code msg) ∧
      (placeOrder noFaults 5 scenarioStore (requestOf invalidLines)).1 = scenarioStore) ∧
    ([some ⟨"P1", "P1", 10, Regular, 2⟩, none, some ⟨"P2", "P2", 20, Premium, 11⟩].reduceOption
        = invalidLines ∧
      (placeOrder noFaults 5 scenarioStore
        (.ok [some ⟨"P1", "P1", 10, Regular, 2⟩, none,
              some ⟨"P2", "P2", 20, Premium, 11⟩])).1 = scenarioStore) := by
  have h := placeOrder_invalid_quantity_rolls_back noFaults 5 scenarioStore invalidLines
    (by decide)
  have hr : [some ⟨"P1", "P1", 10, Regular, 2⟩, none,
      some ⟨"P2", "P2", 20, Premium, 11⟩].reduceOption = invalidLines := rfl
  exact ⟨by decide, ⟨h.1, h.2.1⟩, hr, (h.2.2.2.2.2 _ hr).1⟩

/-- C3: when any store call of `placeOrder` fails (call 0 is `Begin`, calls 1..n
the decrements, n+1 the order insert, n+2..2n+1 the link inserts, 2n+2 the
commit), `placeOrder` answers with an error and the store after the call is the
store before the call; in particular all product quantities are the pre-call
ones.  The store is also unchanged when the request has nil entries among these
lines, where the handler may panic instead of answering. -/
theorem placeOrder_store_failure_rolls_back (fail : Faults) (now : Int) (db : Store)
    (lines : List Product) (k : Nat) (hk : k ≤ 2 * lines.length + 2) (hfail : fail k ≠ none) :
    (∃ code msg, (placeOrder fail now db (requestOf lines)).2 = .error code msg) ∧
    (placeOrder fail now db (requestOf lines)).1 = db ∧
    (placeOrder fail now db (requestOf lines)).1.products.map (fun p => p.Quantity)
      = db.products.map (fun p => p.Quantity) ∧
    (∀ entries : List (Option Product), entries.reduceOption = lines →
      (placeOrder fail now db (.ok entries)).1 = db ∧
      ((placeOrder fail now db (.ok entries)).2 = .panic ∨
        ∃ code msg, (placeOrder fail now db (.ok entries)).2 = .error code msg)) := by
  have hno : ¬ ((∀ l ∈ lines, validLine l) ∧
      ∀ k, k ≤ 2 * lines.length + 2 → fail k = none) := by
    rintro ⟨_, hf⟩
    exact hfail (hf k hk)
  refine ⟨?_, ?_, ?_, fun entries hr => placeOrder_not_placed fail now db entries lines hr hno⟩
  all_goals
    rcases placeOrder_cases_some fail now db lines with ⟨c, m, hc⟩ | ⟨hv, hf, _⟩
    · first
        | (rw [hc]; exact ⟨c, m, rfl⟩)
        | rw [hc]
    · exact absurd ⟨hv, hf⟩ hno

/-- C3 on the spec's scenario with a failure of the order insert (call 5), after
the four decrements. -/
theorem placeOrder_store_failure_rolls_back_witness :
    (5 ≤ 2 * scenarioLines.length + 2 ∧ faultAt 5 "insert failed" 5 ≠ none) ∧
    (∃ code msg, (placeOrder (faultAt 5 "insert failed") 5 scenarioStore
        (requestOf scenarioLines)).2 = .error code msg) ∧
    (placeOrder (faultAt 5 "insert failed") 5 scenarioStore (requestOf scenarioLines)).1
      = scenarioStore ∧
    (placeOrder (faultAt 5 "insert failed") 5 scenarioStore
        (requestOf scenarioLines)).1.products.map (fun p => p.Quantity)
      = scenarioStore.products.map (fun p => p.Quantity) := by
  have h := placeOrder_store_failure_rolls_back (faultAt 5 "insert failed") 5 scenarioStore
    scenarioLines 5 (by decide) (by decide)
  exact ⟨⟨by decide, by decide⟩, h.1, h.2.1, h.2.2.1⟩

/-! ## Placement: stock -/

/-- C4, as stated, fails: from a store with one unit of P1 (all quantities ≥ 0),
a request for two units of P1 is accepted, the order is created, and the stored
quantity of P1 becomes -1. -/
theorem placeOrder_stock_guard_counterexample :
    (∀ p ∈ lowStockStore.products, 0 ≤ p.Quantity) ∧
    (placeOrder noFaults 5 lowStockStore (requestOf overdraftLines)).2
      = .placed "Order placed successfully" "ORD5" ∧
    (placeOrder noFaults 5 lowStockStore (requestOf overdraftLines)).1.orders.length = 1 ∧
    (placeOrder noFaults 5 lowStockStore (requestOf overdraftLines)).1.products.map
      (fun p => p.Quantity) = [-1] ∧
    ¬ (∀ p ∈ (placeOrder noFaults 5 lowStockStore (requestOf overdraftLines)).1.products,
        0 ≤ p.Quantity) := by
  refine ⟨by decide, by decide, by decide, by decide, by decide⟩

/-- C4 amended: from a store in which every product's quantity is ≥ 0, after a
call to `placeOrder` every product's stored quantity is still ≥ 0, provided each
product's stock is at least the total quantity the lines request of it; this
holds as well when the request has nil entries among these lines. -/
theorem placeOrder_stock_nonneg_of_sufficient (fail : Faults) (now : Int) (db : Store)
    (lines : List Product) (h0 : ∀ p ∈ db.products, 0 ≤ p.Quantity)
    (hs : ∀ p ∈ db.products, requested lines p.ID ≤ p.Quantity) :
    (∀ p ∈ (placeOrder fail now db (requestOf lines)).1.products, 0 ≤ p.Quantity) ∧
    (∀ entries : List (Option Product), entries.reduceOption = lines →
      ∀ p ∈ (placeOrder fail now db (.ok entries)).1.products, 0 ≤ p.Quantity) := by
  have key : ∀ entries : List (Option Product), entries.reduceOption = lines →
      ∀ p ∈ (placeOrder fail now db (.ok entries)).1.products, 0 ≤ p.Quantity := by
    intro entries hr
    rcases placeOrder_cases fail now db (.ok entries) with ⟨r, hc, _⟩ | ⟨ls, hb, _, _, hp⟩
    · rw [hc]; exact h0
    · have he : entries = ls.map some := by simpa [requestOf] using hb
      have : ls = lines := by rw [← hr, he, reduceOption_map_some]
      subst this
      rw [hp]
      intro p hp
      simp only [placedStore, decrementAll, List.mem_map] at hp
      obtain ⟨row, hrow, rfl⟩ := hp
      have := hs row hrow
      simp only
      omega
  exact ⟨key _ (reduceOption_map_some lines), key⟩

/-- C4 amended, on the spec's scenario (stock 5 each, at most 2 requested). -/
theorem placeOrder_stock_nonneg_of_sufficient_witness :
    (∀ p ∈ scenarioStore.products, 0 ≤ p.Quantity) ∧
    (∀ p ∈ scenarioStore.products, requested scenarioLines p.ID ≤ p.Quantity) ∧
    (∀ p ∈ (placeOrder noFaults 5 scenarioStore (requestOf scenarioLines)).1.products,
      0 ≤ p.Quantity) :=
  ⟨by decide, by decide,
    (placeOrder_stock_nonneg_of_sufficient noFaults 5 scenarioStore scenarioLines
      (by decide) (by decide)).1⟩

/-! ## Placement: what a committed order writes -/

/-- C5, as stated, fails: a second placement of the spec's scenario within the
same second (no store call failing) persists prodQuantity 4, while eight
order_products rows reference the identifier of the new order. -/
theorem placeOrder_link_count_counterexample :
    (∀ l ∈ scenarioLines, 1 ≤ l.Quantity ∧ l.Quantity ≤ 10) ∧
    (placeOrder noFaults 5 scenarioStore (requestOf scenarioLines)).2
      = .placed "Order placed successfully" "ORD5" ∧
    (placeOrder noFaults 5 placedOnceStore (requestOf scenarioLines)).2
      = .placed "Order placed successfully" "ORD5" ∧
    (placeOrder noFaults 5 placedOnceStore (requestOf scenarioLines)).1.orders.map
      (fun o => (o.id, o.prodQuantity)) = [("ORD5", 4), ("ORD5", 4)] ∧
    ((placeOrder noFaults 5 placedOnceStore (requestOf scenarioLines)).1.order_products.filter
      (fun r => r.order_id = "ORD5")).length = 8 := by
  refine ⟨by decide, by decide, by decide, by decide, by decide⟩

/-- C5 amended: when every line has a quantity in [1,10] and no store call
fails, `placeOrder` answers with the generated identifier, appends exactly one
row to `orders` (the generated identifier, value `calculateOrderValue lines`,
status Placed, prodQuantity the number of lines) and appends exactly one
`order_products` row (identifier, product id) per line, in request order.  The
number of `order_products` rows that reference the new identifier grows by the
persisted prodQuantity, and it equals the persisted prodQuantity when no
`order_products` row carried that identifier before the call. -/
theorem placeOrder_persists_order (fail : Faults) (now : Int) (db : Store)
    (lines : List Product) (hv : ∀ l ∈ lines, 1 ≤ l.Quantity ∧ l.Quantity ≤ 10)
    (hf : ∀ k, k ≤ 2 * lines.length + 2 → fail k = none) :
    (placeOrder fail now db (requestOf lines)).2
      = .placed "Order placed successfully" (generateOrderID now) ∧
    (placeOrder fail now db (requestOf lines)).1.orders
      = db.orders ++ [⟨generateOrderID now, calculateOrderValue lines, Placed, none,
          lines.length⟩] ∧
    (placeOrder fail now db (requestOf lines)).1.order_products
      = db.order_products ++ lines.map (fun l => ⟨generateOrderID now, l.ID⟩) ∧
    ((placeOrder fail now db (requestOf lines)).1.order_products.filter
        (fun r => r.order_id = generateOrderID now)).length
      = (db.order_products.filter (fun r => r.order_id = generateOrderID now)).length
          + lines.length ∧
    ((∀ r ∈ db.order_products, r.order_id ≠ generateOrderID now) →
      ((placeOrder fail now db (requestOf lines)).1.order_products.filter
        (fun r => r.order_id = generateOrderID now)).length = lines.length) := by
  have hp := placeOrder_success fail now db lines hv hf
  have hcount : ((placeOrder fail now db (requestOf lines)).1.order_products.filter
        (fun r => r.order_id = generateOrderID now)).length
      = (db.order_products.filter (fun r => r.order_id = generateOrderID now)).length
          + lines.length := by
    rw [hp]
    simp only [placedStore, newLinkRows, List.filter_append, List.length_append]
    have hnew : (lines.map (fun l => (⟨generateOrderID now, l.ID⟩ : OrderProductRow))).filter
        (fun r => r.order_id = generateOrderID now)
        = lines.map (fun l => (⟨generateOrderID now, l.ID⟩ : OrderProductRow)) :=
      List.filter_eq_self.mpr (by simp)
    rw [hnew, List.length_map]
  refine ⟨by rw [hp]; rfl, by rw [hp]; rfl, by rw [hp]; rfl, hcount, ?_⟩
  intro hfresh
  rw [hcount, List.filter_eq_nil_iff.mpr (by intro r hr; simpa using hfresh r hr)]
  simp

/-- C5 amended, on the spec's scenario: value 47.7, status Placed, prodQuantity 4
and four link rows, which are all the rows referencing the new order. -/
theorem placeOrder_persists_order_witness :
    (∀ l ∈ scenarioLines, 1 ≤ l.Quantity ∧ l.Quantity ≤ 10) ∧
    (placeOrder noFaults 1700000000 scenarioStore (requestOf scenarioLines)).2
      = .placed "Order placed successfully" "ORD1700000000" ∧
    (placeOrder noFaults 1700000000 scenarioStore (requestOf scenarioLines)).1.orders
      = [⟨"ORD1700000000", 477 / 10, "Placed", none, 4⟩] ∧
    (placeOrder noFaults 1700000000 scenarioStore (requestOf scenarioLines)).1.order_products
      = [⟨"ORD1700000000", "P1"⟩, ⟨"ORD1700000000", "P2"⟩, ⟨"ORD1700000000", "P3"⟩,
         ⟨"ORD1700000000", "P4"⟩] ∧
    ((placeOrder noFaults 1700000000 scenarioStore
        (requestOf scenarioLines)).1.order_products.filter
      (fun r => r.order_id = "ORD1700000000")).length = 4 := by
  have h := placeOrder_persists_order noFaults 1700000000 scenarioStore scenarioLines
    (by decide) (fun _ _ => rfl)
  have hid : generateOrderID 1700000000 = "ORD1700000000" := by decide
  have hval : calculateOrderValue scenarioLines = 477 / 10 := by
    rw [calculateOrderValue_eq, if_neg (by decide)]
    norm_num [rawTotal, scenarioLines]
  rw [hid, hval] at h
  obtain ⟨h1, h2, h3, _, h5⟩ := h
  refine ⟨by decide, h1, ?_, ?_, ?_⟩
  · rw [h2]; rfl
  · rw [h3]; rfl
  · exact h5 (by decide)

/-- C6: when every line has a quantity in [1,10] and no store call fails, after
`placeOrder` the products table is the old one, row by row, with each quantity
reduced by the sum of the quantities of the lines whose product id is the row's
id; id, name, price and category are kept, and a product no line refers to has
nothing subtracted. -/
theorem placeOrder_decrements_stock (fail : Faults) (now : Int) (db : Store)
    (lines : List Product) (hv : ∀ l ∈ lines, 1 ≤ l.Quantity ∧ l.Quantity ≤ 10)
    (hf : ∀ k, k ≤ 2 * lines.length + 2 → fail k = none) :
    (placeOrder fail now db (requestOf lines)).1.products
      = db.products.map (fun row =>
          ({ ID := row.ID, Name := row.Name, Price := row.Price, Category := row.Category,
             Quantity := row.Quantity - requested lines row.ID } : Product)) ∧
    (∀ id, (∀ l ∈ lines, l.ID ≠ id) → requested lines id = 0) ∧
    (∀ row ∈ db.products, (∀ l ∈ lines, l.ID ≠ row.ID) →
      row ∈ (placeOrder fail now db (requestOf lines)).1.products) := by
  have hp := placeOrder_success fail now db lines hv hf
  have hz : ∀ id, (∀ l ∈ lines, l.ID ≠ id) → requested lines id = 0 := by
    intro id hid
    unfold requested
    rw [List.filter_eq_nil_iff.mpr (by intro l hl; simpa using hid l hl)]
    rfl
  refine ⟨by rw [hp]; rfl, hz, ?_⟩
  intro row hrow hno
  rw [hp]
  simp only [placedStore, decrementAll, List.mem_map]
  exact ⟨row, hrow, by rw [hz row.ID hno]; simp⟩

/-- C6 on the spec's scenario: stocks 5, 5, 5, 5 become 3, 4, 4, 4. -/
theorem placeOrder_decrements_stock_witness :
    (∀ l ∈ scenarioLines, 1 ≤ l.Quantity ∧ l.Quantity ≤ 10) ∧
    (placeOrder noFaults 5 scenarioStore (requestOf scenarioLines)).1.products
      = [⟨"P1", "P1", 10, Regular, 3⟩, ⟨"P2", "P2", 20, Premium, 4⟩,
         ⟨"P3", "P3", 5, Premium, 4⟩, ⟨"P4", "P4", 8, Premium, 4⟩] := by
  have h := (placeOrder_decrements_stock noFaults 5 scenarioStore scenarioLines
    (by decide) (fun _ _ => rfl)).1
  refine ⟨by decide, ?_⟩
  rw [h]
  have r1 : requested scenarioLines "P1" = 2 := by decide
  have r2 : requested scenarioLines "P2" = 1 := by decide
  have r3 : requested scenarioLines "P3" = 1 := by decide
  have r4 : requested scenarioLines "P4" = 1 := by decide
  simp [scenarioStore, scenarioCatalog, r1, r2, r3, r4]

/-! ## Placement: the response -/

/-- The response of `placeOrder` on a request without nil entries.  When no store
call fails, it is a bad-request (400) error exactly when some line has a
quantity below 1 or above 10, the message then names the product of the first
such line in request order, and otherwise it is the success response with the
generated identifier.  When a store call fails among the calls made before any
invalid line is reached, it is an internal (500) error carrying the store's
error text. -/
theorem placeOrder_response_of_lines (fail : Faults) (now : Int) (db : Store)
    (lines : List Product) :
    ((∀ k, fail k = none) →
      ((∃ msg, (placeOrder fail now db (requestOf lines)).2 = .error StatusBadRequest msg) ↔
        ∃ l ∈ lines, l.Quantity < 1 ∨ l.Quantity > 10) ∧
      (∀ bad, firstInvalid lines = some bad →
        (placeOrder fail now db (requestOf lines)).2
          = .error StatusBadRequest ("invalid quantity for product: " ++ bad.Name)) ∧
      ((¬ ∃ l ∈ lines, l.Quantity < 1 ∨ l.Quantity > 10) →
        (placeOrder fail now db (requestOf lines)).2
          = .placed "Order placed successfully" (generateOrderID now))) ∧
    (∀ k e, k < storeCalls lines → fail k = some e → (∀ j, j < k → fail j = none) →
      (placeOrder fail now db (requestOf lines)).2 = .error StatusInternalServerError e) ∧
    (∀ k, k < storeCalls lines → fail k ≠ none →
      ∃ e, (placeOrder fail now db (requestOf lines)).2
        = .error StatusInternalServerError e) := by
  refine ⟨fun hnf => ⟨⟨?_, ?_⟩, ?_, ?_⟩, ?_, ?_⟩
  · rintro ⟨msg, hmsg⟩
    by_contra hno
    have hv : ∀ l ∈ lines, validLine l := by
      intro l hl
      rw [validLine_iff]
      exact fun hq => hno ⟨l, hl, hq⟩
    rw [placeOrder_success fail now db lines hv (fun k _ => hnf k)] at hmsg
    simp [placedResponse] at hmsg
  · rintro ⟨l, hl, hq⟩
    have hnot : ¬ ∀ x ∈ lines, validLine x := fun hall => (validLine_iff l).mp (hall l hl) hq
    obtain ⟨bad, hbad, _, _⟩ := firstInvalid_of_not_all lines hnot
    exact ⟨_, by rw [placeOrder_invalid fail now db lines bad hbad (fun k _ => hnf k)]⟩
  · intro bad hbad
    rw [placeOrder_invalid fail now db lines bad hbad (fun k _ => hnf k)]
  · intro hno
    have hv : ∀ l ∈ lines, validLine l := by
      intro l hl
      rw [validLine_iff]
      exact fun hq => hno ⟨l, hl, hq⟩
    rw [placeOrder_success fail now db lines hv (fun k _ => hnf k)]
    rfl
  · intro k e hk hsome hnone
    rw [placeOrder_fault fail now db lines k e hk hsome hnone]
  · intro k hk hne
    obtain ⟨j, hj, e, hsome, hnone⟩ := first_fault fail k hne
    exact ⟨e, by rw [placeOrder_fault fail now db lines j e (by omega) hsome hnone]⟩

/-- C7, at a failing input: the body `{"orderProducts":[null]}` decodes to one
nil entry.  With no store call failing and no line of quantity below 1 or above
10, `placeOrder` panics: the response is neither the 400 error nor the success
response, and the store is as before.  The same happens at a nil entry that
follows a valid line. -/
theorem placeOrder_nil_entry_panics :
    (¬ ∃ l : Product, some l ∈ [(none : Option Product)] ∧
        (l.Quantity < 1 ∨ l.Quantity > 10)) ∧
    placeOrder noFaults 5 scenarioStore (.ok [none]) = (scenarioStore, .panic) ∧
    (placeOrder noFaults 5 scenarioStore (.ok [none])).2
      ≠ .placed "Order placed successfully" (generateOrderID 5) ∧
    (∀ code msg, (placeOrder noFaults 5 scenarioStore (.ok [none])).2 ≠ .error code msg) ∧
    placeOrder noFaults 5 scenarioStore (.ok [some ⟨"P1", "P1", 10, Regular, 2⟩, none])
      = (scenarioStore, .panic) := by
  have h1 : placeOrder noFaults 5 scenarioStore (.ok [none]) = (scenarioStore, .panic) := by
    simp [placeOrder, noFaults, decrementLoop]
  refine ⟨by simp, h1, ?_, ?_, ?_⟩
  · rw [h1]; simp
  · intro code msg; rw [h1]; simp
  · simp [placeOrder, noFaults, decrementLoop]

/-! ## Order status -/

/-- C8: for a decoded status and no store failure, `updateOrderStatus` rewrites
every order row with the given identifier to the given status, with dispatchDate
today's date when the status is Dispatched and the empty string for any other
status, and leaves every other order row and the other tables as they were; when
no row has the identifier the answer is not-found (404) and the store is
unchanged. -/
theorem updateOrderStatus_effect (fail : Faults) (today : String) (db : Store)
    (orderID : String) (status : OrderStatus) (hf : ∀ k, fail k = none) :
    (updateOrderStatus fail today db orderID (.ok status)).1.orders
      = db.orders.map (fun row =>
          if row.id = orderID then
            ({ id := row.id, value := row.value, status := status,
               dispatchDate := some (if status = Dispatched then today else ""),
               prodQuantity := row.prodQuantity } : OrderRow)
          else row) ∧
    (updateOrderStatus fail today db orderID (.ok status)).1.products = db.products ∧
    (updateOrderStatus fail today db orderID (.ok status)).1.order_products
      = db.order_products ∧
    ((∀ row ∈ db.orders, row.id ≠ orderID) →
      (updateOrderStatus fail today db orderID (.ok status)).2
        = .error StatusNotFound "404 page not found" ∧
      (updateOrderStatus fail today db orderID (.ok status)).1 = db) := by
  have hst := updateOrderStatus_store fail today db orderID status (hf 0)
  refine ⟨by rw [hst]; rfl, by rw [hst], by rw [hst], ?_⟩
  intro habs
  have h0 := hf 0
  have h1 := hf 1
  simp only [updateOrderStatus, h0, h1,
    rowsAffectedSetStatus_absent db.orders status _ orderID habs,
    execSetStatus_absent db.orders status _ orderID habs]
  simp

/-- C8 on a table with two orders: Dispatched stamps the date on ORD1 only,
Placed writes the empty string, and an unknown identifier is not found. -/
theorem updateOrderStatus_effect_witness :
    (updateOrderStatus noFaults "2024-05-17" twoOrdersStore "ORD1" (.ok Dispatched)).1.orders
      = [⟨"ORD1", 20, "Dispatched", some "2024-05-17", 1⟩, ⟨"ORD2", 30, "Placed", none, 2⟩] ∧
    (updateOrderStatus noFaults "2024-05-17" twoOrdersStore "ORD2" (.ok Placed)).1.orders
      = [⟨"ORD1", 20, "Placed", none, 1⟩, ⟨"ORD2", 30, "Placed", some "", 2⟩] ∧
    ((updateOrderStatus noFaults "2024-05-17" twoOrdersStore "ORD9" (.ok Canceled)).2
        = .error 404 "404 page not found" ∧
      (updateOrderStatus noFaults "2024-05-17" twoOrdersStore "ORD9" (.ok Canceled)).1
        = twoOrdersStore) := by
  refine ⟨?_, ?_, ?_⟩
  · rw [(updateOrderStatus_effect noFaults "2024-05-17" twoOrdersStore "ORD1" Dispatched
      (fun _ => rfl)).1]
    simp [twoOrdersStore, Dispatched, Placed]
  · rw [(updateOrderStatus_effect noFaults "2024-05-17" twoOrdersStore "ORD2" Placed
      (fun _ => rfl)).1]
    simp [twoOrdersStore, Dispatched, Placed]
  · exact (updateOrderStatus_effect noFaults "2024-05-17" twoOrdersStore "ORD9" Canceled
      (fun _ => rfl)).2.2.2 (by decide)

/-! ## Order identifiers -/

/-- C9: `generateOrderID` at the Unix second `t` is the prefix "ORD" followed by
the decimal rendering of `t`; it takes no store.  Identifiers generated at the
seconds `t1` and `t2` are equal exactly when `t1 = t2`. -/
theorem generateOrderID_prefix_and_collisions (t1 t2 : Int) :
    generateOrderID t1 = "ORD" ++ formatDecimal t1 ∧
    (0 ≤ t1 → formatDecimal t1 = Nat.repr t1.toNat) ∧
    (generateOrderID t1 = generateOrderID t2 ↔ t1 = t2) := by
  refine ⟨rfl, ?_, ?_, ?_⟩
  · intro h
    unfold formatDecimal
    rw [if_neg (by omega)]
    congr 1
    omega
  · intro h
    exact formatDecimal_injective _ _ (append_left_cancel _ _ _ h)
  · intro h; rw [h]

/-- C9 at concrete seconds: the rendering, a collision within one second, and
distinct identifiers in consecutive seconds. -/
theorem generateOrderID_prefix_and_collisions_witness :
    generateOrderID 1700000000 = "ORD1700000000" ∧
    (generateOrderID 1700000000 = generateOrderID 1700000000 ↔
      (1700000000 : Int) = 1700000000) ∧
    generateOrderID 1700000000 ≠ generateOrderID 1700000001 := by
  refine ⟨by decide, (generateOrderID_prefix_and_collisions 1700000000 1700000000).2.2, ?_⟩
  intro h
  have := (generateOrderID_prefix_and_collisions 1700000000 1700000001).2.2.mp h
  omega

/-! ## Placement: the value comes from the request -/

/-- C10: two successful placements of the same request lines, on any two stores
(at any two instants), each append one order row whose value is
`calculateOrderValue lines`; the two persisted values are equal, whatever the
two products tables hold. -/
theorem placeOrder_value_from_request (fail1 fail2 : Faults) (now1 now2 : Int)
    (db1 db2 : Store) (lines : List Product)
    (h1 : ∃ m id, (placeOrder fail1 now1 db1 (requestOf lines)).2 = .placed m id)
    (h2 : ∃ m id, (placeOrder fail2 now2 db2 (requestOf lines)).2 = .placed m id) :
    ∃ row1 row2,
      (placeOrder fail1 now1 db1 (requestOf lines)).1.orders = db1.orders ++ [row1] ∧
      (placeOrder fail2 now2 db2 (requestOf lines)).1.orders = db2.orders ++ [row2] ∧
      row1.value = calculateOrderValue lines ∧
      row2.value = calculateOrderValue lines ∧
      row1.value = row2.value := by
  have key : ∀ (fail : Faults) (now : Int) (db : Store),
      (∃ m id, (placeOrder fail now db (requestOf lines)).2 = .placed m id) →
      (placeOrder fail now db (requestOf lines)).1.orders
        = db.orders ++ [newOrderRow now lines] := by
    intro fail now db ⟨m, id, h⟩
    rcases placeOrder_cases_some fail now db lines with ⟨c, e, hc⟩ | ⟨_, _, hp⟩
    · rw [hc] at h; cases h
    · rw [hp]; rfl
  exact ⟨newOrderRow now1 lines, newOrderRow now2 lines, key _ _ _ h1, key _ _ _ h2,
    rfl, rfl, rfl⟩

/-- C10 on the spec's scenario and on a store with other prices, categories and
stock and without P3 and P4: both placements persist the value 47.7. -/
theorem placeOrder_value_from_request_witness :
    ((∃ m id, (placeOrder noFaults 5 scenarioStore (requestOf scenarioLines)).2
        = .placed m id) ∧
     (∃ m id, (placeOrder noFaults 9 otherCatalogStore (requestOf scenarioLines)).2
        = .placed m id)) ∧
    ∃ row1 row2,
      (placeOrder noFaults 5 scenarioStore (requestOf scenarioLines)).1.orders
        = scenarioStore.orders ++ [row1] ∧
      (placeOrder noFaults 9 otherCatalogStore (requestOf scenarioLines)).1.orders
        = otherCatalogStore.orders ++ [row2] ∧
      row1.value = calculateOrderValue scenarioLines ∧
      row2.value = calculateOrderValue scenarioLines ∧
      row1.value = row2.value :=
  ⟨⟨⟨"Order placed successfully", "ORD5", by decide⟩,
      ⟨"Order placed successfully", "ORD9", by decide⟩⟩,
    placeOrder_value_from_request noFaults noFaults 5 9 scenarioStore otherCatalogStore
      scenarioLines ⟨"Order placed successfully", "ORD5", by decide⟩
      ⟨"Order placed successfully", "ORD9", by decide⟩⟩

end Ecommerce
